import Mathlib

/-!
Verification of the signal-derivation core of a currency-analysis program.
The program (pandas-based) normalizes a raw keyed mapping of daily OHLC
observations into a sorted table, computes a 14-day RSI over the Close
column, and derives threshold trade signals with a one-day position lag.

We shallowly embed the pandas semantics: float64 values are modelled as
rationals extended with NaN and the two infinities (`PFloat`), series as
lists of `PFloat`, and DataFrames as a column-name list plus date-indexed
rows.  NaN propagation, comparison-with-NaN-is-false, rolling-window
minimum-period behaviour and IEEE division by zero are modelled explicitly,
since the program's edge-case behaviour hinges on them.
-/

attribute [local semireducible] Rat.add Rat.mul Rat.inv Rat.sub

namespace Forex

/-- Model of a pandas float64 cell: a rational, NaN, or an infinity. -/
inductive PFloat where
  | nan : PFloat
  | inf : PFloat
  | ninf : PFloat
  | num : ℚ → PFloat
deriving DecidableEq

/-- IEEE-style negation. -/
def PFloat.neg : PFloat → PFloat
  | .nan => .nan
  | .inf => .ninf
  | .ninf => .inf
  | .num a => .num (-a)

/-- IEEE-style addition: NaN propagates, opposite infinities give NaN. -/
def PFloat.add : PFloat → PFloat → PFloat
  | .nan, _ => .nan
  | _, .nan => .nan
  | .inf, .ninf => .nan
  | .ninf, .inf => .nan
  | .inf, _ => .inf
  | _, .inf => .inf
  | .ninf, _ => .ninf
  | _, .ninf => .ninf
  | .num a, .num b => .num (a + b)

/-- IEEE-style subtraction. -/
def PFloat.sub (a b : PFloat) : PFloat := a.add b.neg

/-- IEEE-style division: x/0 is a signed infinity for x ≠ 0 and NaN for
    0/0; finite/infinite is 0; infinite/infinite is NaN. -/
def PFloat.div : PFloat → PFloat → PFloat
  | .nan, _ => .nan
  | _, .nan => .nan
  | .inf, .inf => .nan
  | .inf, .ninf => .nan
  | .ninf, .inf => .nan
  | .ninf, .ninf => .nan
  | .inf, .num b => if b < 0 then .ninf else .inf
  | .ninf, .num b => if b < 0 then .inf else .ninf
  | .num _, .inf => .num 0
  | .num _, .ninf => .num 0
  | .num a, .num b =>
      if b = 0 then (if a = 0 then .nan else if 0 < a then .inf else .ninf)
      else .num (a / b)

/-- IEEE-style strict greater-than: any comparison with NaN is false. -/
def PFloat.gt : PFloat → PFloat → Bool
  | .nan, _ => false
  | _, .nan => false
  | .inf, .inf => false
  | .inf, _ => true
  | _, .inf => false
  | .ninf, _ => false
  | _, .ninf => true
  | .num a, .num b => decide (b < a)

/-- IEEE-style strict less-than. -/
def PFloat.lt (a b : PFloat) : Bool := PFloat.gt b a

/-- True for values a parsed price column can hold: a rational or NaN
    (never an infinity). -/
def PFloat.isRealOrNaN : PFloat → Bool
  | .inf => false
  | .ninf => false
  | _ => true

/-- True exactly for NaN. -/
def PFloat.isNan : PFloat → Bool
  | .nan => true
  | _ => false

/-! ### Series operations (pandas `Series` semantics) -/

/-- Tail of `Series.diff`: element-wise difference with the previous value. -/
def diffAux : PFloat → List PFloat → List PFloat
  | _, [] => []
  | p, x :: xs => x.sub p :: diffAux x xs

/-- `Series.diff()`: first element NaN, then successive differences. -/
def diff : List PFloat → List PFloat
  | [] => []
  | x :: xs => .nan :: diffAux x xs

/-- Mean of one rolling window with pandas' default `min_periods = window`:
    NaN if any entry is NaN, otherwise the sum divided by the length. -/
def windowMean (l : List PFloat) : PFloat :=
  if l.any PFloat.isNan then .nan
  else (l.foldr PFloat.add (.num 0)).div (.num l.length)

/-- `Series.rolling(window=w).mean()`: index `i` is NaN until `w` values
    are available (`i + 1 < w`, or `w = 0`), else the window mean of the
    last `w` values ending at `i`. -/
def rollingMean (w : ℕ) (xs : List PFloat) : List PFloat :=
  (List.range xs.length).map (fun i =>
    if i + 1 < w ∨ w = 0 then .nan
    else windowMean ((xs.take (i + 1)).drop (i + 1 - w)))

/-- `delta.where(delta > 0, 0)`: keep positive deltas, everything else
    (including NaN, whose comparison is false) becomes 0. -/
def posPart (d : PFloat) : PFloat := if d.gt (.num 0) then d else .num 0

/-- `-delta.where(delta < 0, 0)`: negated negative deltas, else 0. -/
def negPart (d : PFloat) : PFloat := (if d.lt (.num 0) then d else .num 0).neg

/-- The rolling average-gain series of `calculate_rsi`. -/
def gainSeries (data : List PFloat) (w : ℕ) : List PFloat :=
  rollingMean w ((diff data).map posPart)

/-- The rolling average-loss series of `calculate_rsi`. -/
def lossSeries (data : List PFloat) (w : ℕ) : List PFloat :=
  rollingMean w ((diff data).map negPart)

/-- `100 - (100 / (1 + rs))`, element formula of `calculate_rsi`. -/
def rsiFormula (rs : PFloat) : PFloat :=
  (PFloat.num 100).sub ((PFloat.num 100).div ((PFloat.num 1).add rs))

/-- `calculate_rsi(data, window)` from the source: gain and loss rolling
    means of the positive and negative delta parts, `rs = gain/loss`,
    `rsi = 100 - 100/(1+rs)`. -/
def calculate_rsi (data : List PFloat) (w : ℕ := 14) : List PFloat :=
  List.zipWith (fun g l => rsiFormula (g.div l)) (gainSeries data w) (lossSeries data w)

/-! ### Signal generation (`generate_trade_signals` column computations) -/

/-- `Series.fillna(0)` on one cell. -/
def fillna0 : PFloat → PFloat
  | .nan => .num 0
  | x => x

/-- `df.loc[mask, col] = v` on a column: set `v` where the mask is true. -/
def maskAssign (mask : List Bool) (v : ℚ) (s : List PFloat) : List PFloat :=
  (mask.zip s).map (fun p => if p.1 then .num v else p.2)

/-- The Signal column: start from an absent (all-NaN) column, set −1 where
    RSI > 70, set 1 where RSI < 30, then `fillna(0)`. -/
def signalSeries (rsi : List PFloat) : List PFloat :=
  let s0 := rsi.map (fun _ => PFloat.nan)
  let s1 := maskAssign (rsi.map (fun x => x.gt (.num 70))) (-1) s0
  let s2 := maskAssign (rsi.map (fun x => x.lt (.num 30))) 1 s1
  s2.map fillna0

/-- `Series.shift()`: NaN first, each value moved down one slot. -/
def shift1 (xs : List PFloat) : List PFloat :=
  (PFloat.nan :: xs).take xs.length

/-- The Position column: `df['Signal'].shift()`. -/
def positionSeries (rsi : List PFloat) : List PFloat :=
  shift1 (signalSeries rsi)

/-! ### Raw input and DataFrame model (`preprocess_data` and the pipeline) -/

/-- A raw JSON price field: either it parses as a float (`num`) or it is a
    non-numeric string such as "N/A" (`invalid`). -/
inductive RawVal where
  | num : ℚ → RawVal
  | invalid : String → RawVal
deriving DecidableEq

/-- A raw mapping key: either a date string that parses to a calendar date
    (represented by its ordinal `d`; the `tag` distinguishes different
    strings denoting the same date) or an unparseable string. -/
inductive RawKey where
  | date : ℕ → ℤ → RawKey
  | bad : ℕ → RawKey
deriving DecidableEq

/-- One raw record: field label to raw value, in insertion order. -/
abbrev RawRecord := List (String × RawVal)

/-- The raw time-series mapping: key to record, in insertion order. -/
abbrev RawInput := List (RawKey × RawRecord)

/-- Errors the Python code can raise in the modelled fragment. -/
inductive PyErr where
  | valueError : PyErr
  | keyError : String → PyErr
  | attributeError : PyErr
deriving DecidableEq

/-- A DataFrame: column names plus rows of (date, cell values), cells
    aligned with the column-name list. -/
structure DF where
  colNames : List String
  rows : List (ℤ × List PFloat)
deriving DecidableEq

/-- Column union across records in first-seen order, as
    `pd.DataFrame.from_dict(..., orient='index')` builds columns. -/
def collectCols (raw : RawInput) : List String :=
  raw.foldl (fun acc r => acc ++ (r.2.map Prod.fst).filter (fun c => !acc.contains c)) []

/-- True when some record has a price field that fails to parse as a
    float; `dtype=float` then raises ValueError. -/
def containsInvalid (raw : RawInput) : Bool :=
  raw.any (fun r => r.2.any (fun kv => match kv.2 with | .invalid _ => true | _ => false))

/-- True when some key fails to parse as a date (`pd.to_datetime` raises). -/
def containsBadKey (raw : RawInput) : Bool :=
  raw.any (fun r => match r.1 with | .bad _ => true | _ => false)

/-- The parsed date of a key (unreachable default for bad keys). -/
def dateOf : RawKey → ℤ
  | .date _ d => d
  | .bad _ => 0

/-- One table cell: the record's value under a column label, NaN when the
    record lacks the field. -/
def cellOf (rec : RawRecord) (c : String) : PFloat :=
  match rec.lookup c with
  | some (.num q) => .num q
  | some (.invalid _) => .nan
  | none => .nan

/-- The source-specific column labels renamed by `preprocess_data`. -/
def renameCol (c : String) : String :=
  if c = "1. open" then "Open"
  else if c = "2. high" then "High"
  else if c = "3. low" then "Low"
  else if c = "4. close" then "Close"
  else c

/-- Insert a row into a date-sorted row list, keeping dates non-decreasing. -/
def insertRow (x : ℤ × List PFloat) : List (ℤ × List PFloat) → List (ℤ × List PFloat)
  | [] => [x]
  | y :: ys => if x.1 ≤ y.1 then x :: y :: ys else y :: insertRow x ys

/-- `df.sort_index()`: sort rows by date (duplicates are kept). -/
def sortRows : List (ℤ × List PFloat) → List (ℤ × List PFloat)
  | [] => []
  | x :: xs => insertRow x (sortRows xs)

/-- `preprocess_data` from the source: build a float table from the raw
    mapping (ValueError when a value fails to parse), rename the four
    price columns, parse the index as dates (error when a key fails to
    parse), and sort by date. -/
def preprocess_data (raw : RawInput) : Except PyErr DF :=
  if containsInvalid raw then .error .valueError
  else if containsBadKey raw then .error .valueError
  else .ok ⟨(collectCols raw).map renameCol,
    sortRows (raw.map (fun r => (dateOf r.1, (collectCols raw).map (cellOf r.2))))⟩

/-- `df[c]`: the column as a series, KeyError when the column is absent. -/
def DF.getCol (df : DF) (c : String) : Except PyErr (List PFloat) :=
  match df.colNames.findIdx? (fun n => n = c) with
  | some j => .ok (df.rows.map (fun r => r.2.getD j .nan))
  | none => .error (.keyError c)

/-- `df[c] = v`: overwrite the column when present, else append it. -/
def DF.setCol (df : DF) (c : String) (v : List PFloat) : DF :=
  match df.colNames.findIdx? (fun n => n = c) with
  | some j => ⟨df.colNames, (df.rows.zip v).map (fun p => (p.1.1, p.1.2.set j p.2))⟩
  | none => ⟨df.colNames ++ [c], (df.rows.zip v).map (fun p => (p.1.1, p.1.2 ++ [p.2]))⟩

/-- The analyzer's mutable state: the raw data and the `analysis` and
    `signals` tables (None before they are assigned). -/
structure AState where
  data : RawInput
  analysis : Option DF
  signals : Option DF
deriving DecidableEq

/-- `analyze_currency_strength` from the source: preprocess the raw data,
    add the RSI column computed from Close, and store the result in
    `self.analysis`.  Any exception propagates and nothing is stored. -/
def analyze_currency_strength (st : AState) : Except PyErr AState :=
  match preprocess_data st.data with
  | .error e => .error e
  | .ok df =>
    match df.getCol "Close" with
    | .error e => .error e
    | .ok close =>
      .ok { st with analysis := some (df.setCol "RSI" (calculate_rsi close 14)) }

/-- `generate_trade_signals` from the source: copy `self.analysis`
    (AttributeError when it is None), derive the Signal and Position
    columns from its RSI column, and store the copy in `self.signals`. -/
def generate_trade_signals (st : AState) : Except PyErr AState :=
  match st.analysis with
  | none => .error .attributeError
  | some df0 =>
    match df0.getCol "RSI" with
    | .error e => .error e
    | .ok rsi =>
      .ok { st with
        signals := some ((df0.setCol "Signal" (signalSeries rsi)).setCol "Position"
            (shift1 (signalSeries rsi))) }

/-- The observable state after running `analyze_currency_strength`: on an
    exception the assignment never happens and the state is unchanged. -/
def run_analyze (st : AState) : AState :=
  match analyze_currency_strength st with
  | .ok st' => st'
  | .error _ => st

/-- The 15-point Close series of the spec's concrete scenario. -/
def close15 : List PFloat :=
  [.num (110/100), .num (112/100), .num (109/100), .num (115/100), .num (120/100),
   .num (118/100), .num (125/100), .num (130/100), .num (128/100), .num (133/100),
   .num (135/100), .num (140/100), .num (138/100), .num (142/100), .num (145/100)]

deriving instance DecidableEq for Except

/-! ### Infrastructure lemmas -/

theorem length_diffAux (p : PFloat) (xs : List PFloat) : (diffAux p xs).length = xs.length := by
  induction xs generalizing p with
  | nil => rfl
  | cons x xs ih => simp [diffAux, ih]

theorem length_diff (xs : List PFloat) : (diff xs).length = xs.length := by
  cases xs with
  | nil => rfl
  | cons x xs => simp [diff, length_diffAux]

theorem length_rollingMean (w : ℕ) (xs : List PFloat) :
    (rollingMean w xs).length = xs.length := by
  simp [rollingMean]

theorem length_gainSeries (data : List PFloat) (w : ℕ) :
    (gainSeries data w).length = data.length := by
  simp [gainSeries, length_rollingMean, length_diff]

theorem length_lossSeries (data : List PFloat) (w : ℕ) :
    (lossSeries data w).length = data.length := by
  simp [lossSeries, length_rollingMean, length_diff]

theorem length_calculate_rsi (data : List PFloat) (w : ℕ) :
    (calculate_rsi data w).length = data.length := by
  simp [calculate_rsi, length_gainSeries, length_lossSeries]

theorem rollingMean_getElem? (w : ℕ) (xs : List PFloat) (i : ℕ) (hi : i < xs.length) :
    (rollingMean w xs)[i]? =
      some (if i + 1 < w ∨ w = 0 then .nan
            else windowMean ((xs.take (i + 1)).drop (i + 1 - w))) := by
  simp [rollingMean, List.getElem?_range hi]

theorem rollingMean_nan {w : ℕ} {xs : List PFloat} {i : ℕ}
    (hi : i < xs.length) (hw : i + 1 < w ∨ w = 0) :
    (rollingMean w xs)[i]? = some .nan := by
  rw [rollingMean_getElem? w xs i hi, if_pos hw]

theorem sub_realOrNaN {a b : PFloat} (ha : a.isRealOrNaN = true) (hb : b.isRealOrNaN = true) :
    (a.sub b).isRealOrNaN = true := by
  cases a <;> cases b <;> simp_all [PFloat.sub, PFloat.add, PFloat.neg, PFloat.isRealOrNaN]

theorem diffAux_realOrNaN {p : PFloat} {xs : List PFloat} (hp : p.isRealOrNaN = true)
    (hxs : ∀ x ∈ xs, x.isRealOrNaN = true) :
    ∀ y ∈ diffAux p xs, y.isRealOrNaN = true := by
  induction xs generalizing p with
  | nil => simp [diffAux]
  | cons x xs ih =>
    intro y hy
    simp only [diffAux, List.mem_cons] at hy
    rcases hy with h | h
    · subst h; exact sub_realOrNaN (hxs x (by simp)) hp
    · exact ih (hxs x (by simp)) (fun z hz => hxs z (by simp [hz])) y h

theorem diff_realOrNaN {xs : List PFloat} (hxs : ∀ x ∈ xs, x.isRealOrNaN = true) :
    ∀ y ∈ diff xs, y.isRealOrNaN = true := by
  cases xs with
  | nil => simp [diff]
  | cons x xs =>
    intro y hy
    simp only [diff, List.mem_cons] at hy
    rcases hy with h | h
    · subst h; rfl
    · exact diffAux_realOrNaN (hxs x (by simp)) (fun z hz => hxs z (by simp [hz])) y h

theorem posPart_nonneg {d : PFloat} (hd : d.isRealOrNaN = true) :
    ∃ q : ℚ, posPart d = .num q ∧ 0 ≤ q := by
  cases d with
  | nan => exact ⟨0, rfl, le_refl 0⟩
  | inf => simp [PFloat.isRealOrNaN] at hd
  | ninf => simp [PFloat.isRealOrNaN] at hd
  | num a =>
    by_cases h : 0 < a
    · exact ⟨a, by simp [posPart, PFloat.gt, h], le_of_lt h⟩
    · exact ⟨0, by simp [posPart, PFloat.gt, h], le_refl 0⟩

theorem negPart_nonneg {d : PFloat} (hd : d.isRealOrNaN = true) :
    ∃ q : ℚ, negPart d = .num q ∧ 0 ≤ q := by
  cases d with
  | nan => exact ⟨0, by simp [negPart, PFloat.lt, PFloat.gt, PFloat.neg], le_refl 0⟩
  | inf => simp [PFloat.isRealOrNaN] at hd
  | ninf => simp [PFloat.isRealOrNaN] at hd
  | num a =>
    by_cases h : a < 0
    · exact ⟨-a, by simp [negPart, PFloat.lt, PFloat.gt, PFloat.neg, h], by linarith⟩
    · exact ⟨0, by simp [negPart, PFloat.lt, PFloat.gt, PFloat.neg, h], le_refl 0⟩

theorem foldr_add_num {l : List PFloat} (h : ∀ x ∈ l, ∃ q : ℚ, x = .num q ∧ 0 ≤ q) :
    ∃ s : ℚ, l.foldr PFloat.add (.num 0) = .num s ∧ 0 ≤ s := by
  induction l with
  | nil => exact ⟨0, rfl, le_refl 0⟩
  | cons x xs ih =>
    obtain ⟨q, hq, hq0⟩ := h x (by simp)
    obtain ⟨s, hs, hs0⟩ := ih (fun z hz => h z (by simp [hz]))
    exact ⟨q + s, by simp [hq, hs, PFloat.add], by positivity⟩

theorem windowMean_num {l : List PFloat} (hne : l ≠ [])
    (h : ∀ x ∈ l, ∃ q : ℚ, x = .num q ∧ 0 ≤ q) :
    ∃ m : ℚ, windowMean l = .num m ∧ 0 ≤ m := by
  have hnan : l.any PFloat.isNan = false := by
    rw [List.any_eq_false]
    intro x hx
    obtain ⟨q, hq, _⟩ := h x hx
    simp [hq, PFloat.isNan]
  obtain ⟨s, hs, hs0⟩ := foldr_add_num h
  have hlen : (0:ℚ) < (l.length : ℚ) := by
    have := List.length_pos.mpr hne
    exact_mod_cast this
  refine ⟨s / (l.length : ℚ), ?_, by positivity⟩
  simp [windowMean, hnan, hs, PFloat.div, hlen.ne']

theorem gainSeries_num {data : List PFloat} {w i : ℕ}
    (hreal : ∀ x ∈ data, x.isRealOrNaN = true)
    (hi : i < data.length) (hw1 : 0 < w) (hw2 : w ≤ i + 1) :
    ∃ g : ℚ, (gainSeries data w)[i]? = some (.num g) ∧ 0 ≤ g := by
  have hlen : ((diff data).map posPart).length = data.length := by simp [length_diff]
  have hchar := rollingMean_getElem? w ((diff data).map posPart) i (by rw [hlen]; exact hi)
  rw [if_neg (by omega)] at hchar
  set l := (((diff data).map posPart).take (i + 1)).drop (i + 1 - w) with hl
  have hsub : ∀ x ∈ l, ∃ q : ℚ, x = .num q ∧ 0 ≤ q := by
    intro x hx
    have hx' : x ∈ (diff data).map posPart :=
      List.take_subset _ _ (List.drop_subset _ _ hx)
    obtain ⟨d, hd, hdx⟩ := List.mem_map.mp hx'
    obtain ⟨q, hq, h0⟩ := posPart_nonneg (diff_realOrNaN hreal d hd)
    exact ⟨q, by rw [← hdx, hq], h0⟩
  have hlenl : l.length = w := by
    rw [hl]
    simp only [List.length_drop, List.length_take, hlen]
    omega
  have hne : l ≠ [] := by
    intro hcon
    rw [hcon] at hlenl
    simp at hlenl
    omega
  obtain ⟨m, hm, hm0⟩ := windowMean_num hne hsub
  exact ⟨m, by rw [gainSeries, hchar, hm], hm0⟩

theorem lossSeries_num {data : List PFloat} {w i : ℕ}
    (hreal : ∀ x ∈ data, x.isRealOrNaN = true)
    (hi : i < data.length) (hw1 : 0 < w) (hw2 : w ≤ i + 1) :
    ∃ g : ℚ, (lossSeries data w)[i]? = some (.num g) ∧ 0 ≤ g := by
  have hlen : ((diff data).map negPart).length = data.length := by simp [length_diff]
  have hchar := rollingMean_getElem? w ((diff data).map negPart) i (by rw [hlen]; exact hi)
  rw [if_neg (by omega)] at hchar
  set l := (((diff data).map negPart).take (i + 1)).drop (i + 1 - w) with hl
  have hsub : ∀ x ∈ l, ∃ q : ℚ, x = .num q ∧ 0 ≤ q := by
    intro x hx
    have hx' : x ∈ (diff data).map negPart :=
      List.take_subset _ _ (List.drop_subset _ _ hx)
    obtain ⟨d, hd, hdx⟩ := List.mem_map.mp hx'
    obtain ⟨q, hq, h0⟩ := negPart_nonneg (diff_realOrNaN hreal d hd)
    exact ⟨q, by rw [← hdx, hq], h0⟩
  have hlenl : l.length = w := by
    rw [hl]
    simp only [List.length_drop, List.length_take, hlen]
    omega
  have hne : l ≠ [] := by
    intro hcon
    rw [hcon] at hlenl
    simp at hlenl
    omega
  obtain ⟨m, hm, hm0⟩ := windowMean_num hne hsub
  exact ⟨m, by rw [lossSeries, hchar, hm], hm0⟩

theorem calculate_rsi_getElem? {data : List PFloat} {w i : ℕ} {g l : PFloat}
    (hg : (gainSeries data w)[i]? = some g)
    (hl : (lossSeries data w)[i]? = some l) :
    (calculate_rsi data w)[i]? = some (rsiFormula (g.div l)) := by
  simp only [calculate_rsi]
  rw [List.getElem?_zipWith, hg, hl]

theorem rsiFormula_nan : rsiFormula .nan = .nan := rfl

theorem rsiFormula_inf : rsiFormula .inf = .num 100 := by
  norm_num [rsiFormula, PFloat.add, PFloat.div, PFloat.sub, PFloat.neg]

theorem rsiFormula_num {r : ℚ} (hr : 0 ≤ r) :
    rsiFormula (.num r) = .num (100 - 100 / (1 + r)) := by
  have h1 : (1 : ℚ) + r ≠ 0 := by positivity
  simp [rsiFormula, PFloat.add, PFloat.div, PFloat.sub, PFloat.neg, h1, sub_eq_add_neg]

theorem rsiValue_bounds {r : ℚ} (hr : 0 ≤ r) :
    0 ≤ 100 - 100 / (1 + r) ∧ 100 - 100 / (1 + r) ≤ 100 := by
  have h1 : (0:ℚ) < 1 + r := by positivity
  constructor
  · have h2 : 100 / (1 + r) ≤ 100 := by
      rw [div_le_iff₀ h1]; nlinarith
    linarith
  · have h2 : 0 < 100 / (1 + r) := by positivity
    linarith

theorem div_num_pos {a b : ℚ} (hb : 0 < b) : (PFloat.num a).div (.num b) = .num (a / b) := by
  simp [PFloat.div, hb.ne']

theorem div_num_zero_pos {a : ℚ} (ha : 0 < a) : (PFloat.num a).div (.num 0) = .inf := by
  simp [PFloat.div, ha, ha.ne']

theorem div_zero_zero : (PFloat.num 0).div (.num 0) = .nan := by simp [PFloat.div]

theorem div_nan_left {x : PFloat} : PFloat.nan.div x = .nan := by cases x <;> rfl

theorem div_nan_right {x : PFloat} : x.div .nan = .nan := by cases x <;> rfl

/-- The per-element value the Signal-column pipeline produces. -/
def sigOf (x : PFloat) : PFloat :=
  if x.lt (.num 30) then .num 1 else if x.gt (.num 70) then .num (-1) else .num 0

theorem signalSeries_cons (x : PFloat) (xs : List PFloat) :
    signalSeries (x :: xs) = sigOf x :: signalSeries xs := by
  simp only [signalSeries, maskAssign, sigOf, List.map_cons, List.zip_cons_cons]
  split_ifs <;> rfl

theorem signalSeries_getElem? (rsi : List PFloat) (i : ℕ) :
    (signalSeries rsi)[i]? = rsi[i]?.map sigOf := by
  induction rsi generalizing i with
  | nil => simp [signalSeries, maskAssign]
  | cons x xs ih =>
    rw [signalSeries_cons]
    cases i with
    | zero => simp
    | succ n => simp [ih]

theorem length_signalSeries (rsi : List PFloat) : (signalSeries rsi).length = rsi.length := by
  induction rsi with
  | nil => rfl
  | cons x xs ih => rw [signalSeries_cons]; simp [ih]

theorem length_shift1 (xs : List PFloat) : (shift1 xs).length = xs.length := by
  simp [shift1]

theorem shift1_getElem?_succ (xs : List PFloat) (n : ℕ) (h : n + 1 < xs.length) :
    (shift1 xs)[n + 1]? = xs[n]? := by
  rw [shift1, List.getElem?_take]
  simp [h]

theorem shift1_getElem?_zero (xs : List PFloat) (h : 0 < xs.length) :
    (shift1 xs)[0]? = some .nan := by
  rw [shift1, List.getElem?_take]
  simp [h]

theorem head?_insertRow (x : ℤ × List PFloat) (l : List (ℤ × List PFloat)) :
    (insertRow x l).head? = some x ∨ (insertRow x l).head? = l.head? := by
  cases l with
  | nil => exact Or.inl rfl
  | cons y ys =>
    rw [insertRow]
    split_ifs
    · exact Or.inl rfl
    · exact Or.inr rfl

theorem chain_dates_insertRow (x : ℤ × List PFloat) (l : List (ℤ × List PFloat))
    (h : List.Chain' (fun a b : ℤ × List PFloat => a.1 ≤ b.1) l) :
    List.Chain' (fun a b : ℤ × List PFloat => a.1 ≤ b.1) (insertRow x l) := by
  induction l with
  | nil => simp [insertRow]
  | cons y ys ih =>
    rw [insertRow]
    split_ifs with hxy
    · refine List.chain'_cons'.mpr ⟨fun z hz => ?_, h⟩
      simp at hz
      subst hz
      exact hxy
    · have hy := ih (List.chain'_cons'.mp h).2
      refine List.chain'_cons'.mpr ⟨?_, hy⟩
      intro z hz
      rcases head?_insertRow x ys with hh | hh
      · rw [hh] at hz
        simp at hz
        subst hz
        omega
      · rw [hh] at hz
        exact (List.chain'_cons'.mp h).1 z hz

theorem chain_dates_sortRows (l : List (ℤ × List PFloat)) :
    List.Chain' (fun a b : ℤ × List PFloat => a.1 ≤ b.1) (sortRows l) := by
  induction l with
  | nil => simp [sortRows]
  | cons x xs ih => exact chain_dates_insertRow x (sortRows xs) ih

theorem gt70_lt30_false {x : PFloat} (h : x.gt (.num 70) = true) :
    x.lt (.num 30) = false := by
  cases x with
  | nan => simp [PFloat.gt] at h
  | inf => rfl
  | ninf => simp [PFloat.gt] at h
  | num a =>
    simp only [PFloat.gt, decide_eq_true_eq] at h
    simp only [PFloat.lt, PFloat.gt, decide_eq_false_iff_not]
    intro hcon
    linarith

/-! ### Claim theorems -/

/-- C1 (counterexample): on the spec's 15-point Close series with window
    14, the code's RSI is already defined (value 82, not NaN) at index 13,
    an index strictly below the window — because the NaN leading delta is
    coerced to a zero gain/loss by the `where` masks, the rolling mean has
    14 observations one index early. -/
theorem rsi_defined_below_window_counterexample :
    (calculate_rsi close15 14)[13]? = some (.num 82) ∧ PFloat.num 82 ≠ .nan :=
  ⟨by decide, by decide⟩

/-- C1 (amended): RSI is undefined (NaN) at every index `i` with
    `i + 1 < w`, and on the concrete 15-point series with window 14 it is
    defined exactly at indices 13 and 14, with values 82 and 4400/53. -/
theorem rsi_undefined_boundary :
    (∀ (data : List PFloat) (w i : ℕ), i < data.length → i + 1 < w →
        (calculate_rsi data w)[i]? = some .nan) ∧
    calculate_rsi close15 14 =
      List.replicate 13 PFloat.nan ++ [.num 82, .num (4400/53)] := by
  constructor
  · intro data w i hi hw
    have hg : (gainSeries data w)[i]? = some .nan := by
      rw [gainSeries]
      exact rollingMean_nan (by simpa [length_diff] using hi) (Or.inl hw)
    have hl : (lossSeries data w)[i]? = some .nan := by
      rw [lossSeries]
      exact rollingMean_nan (by simpa [length_diff] using hi) (Or.inl hw)
    rw [calculate_rsi_getElem? hg hl]
    rfl
  · decide

/-- C1 witness: the amended theorem applied at the concrete series,
    window 14, index 5. -/
theorem rsi_undefined_boundary_witness :
    5 < close15.length ∧ 5 + 1 < 14 ∧ (calculate_rsi close15 14)[5]? = some .nan :=
  ⟨by decide, by decide, rsi_undefined_boundary.1 close15 14 5 (by decide) (by decide)⟩

/-- C2: where the window average loss is 0 and the average gain is
    positive, RSI is exactly 100 (gain/0 is +∞, so 100 − 100/(1+∞) = 100);
    where both are 0, RSI is NaN (0/0 propagates). -/
theorem rsi_zero_loss_policy (data : List PFloat) (w i : ℕ) (g : ℚ)
    (hg : (gainSeries data w)[i]? = some (.num g))
    (hl : (lossSeries data w)[i]? = some (.num 0)) :
    (0 < g → (calculate_rsi data w)[i]? = some (.num 100)) ∧
    (g = 0 → (calculate_rsi data w)[i]? = some .nan) := by
  constructor
  · intro hpos
    rw [calculate_rsi_getElem? hg hl, div_num_zero_pos hpos, rsiFormula_inf]
  · intro h0
    subst h0
    rw [calculate_rsi_getElem? hg hl, div_zero_zero, rsiFormula_nan]

/-- C2 witness: on [1, 2] with window 2 the loss window is zero and the
    gain positive, giving RSI 100; on the flat [1, 1] both windows are
    zero, giving NaN. -/
theorem rsi_zero_loss_policy_witness :
    (calculate_rsi [PFloat.num 1, .num 2] 2)[1]? = some (.num 100) ∧
    (calculate_rsi [PFloat.num 1, .num 1] 2)[1]? = some .nan :=
  ⟨(rsi_zero_loss_policy [PFloat.num 1, .num 2] 2 1 (1/2) (by decide) (by decide)).1
      (by norm_num),
   (rsi_zero_loss_policy [PFloat.num 1, .num 1] 2 1 0 (by decide) (by decide)).2 rfl⟩

/-- C3: for a Close series of parsed values (rationals or NaN), the RSI
    output has the input's length, and every entry is either NaN or a
    rational in [0, 100]. -/
theorem rsi_length_and_range (data : List PFloat) (w : ℕ)
    (hreal : ∀ x ∈ data, x.isRealOrNaN = true) :
    (calculate_rsi data w).length = data.length ∧
    ∀ (i : ℕ) (x : PFloat), (calculate_rsi data w)[i]? = some x →
      x = .nan ∨ ∃ q : ℚ, x = .num q ∧ 0 ≤ q ∧ q ≤ 100 := by
  refine ⟨length_calculate_rsi data w, ?_⟩
  intro i x hx
  have hi : i < data.length := by
    obtain ⟨hlen, _⟩ := List.getElem?_eq_some.mp hx
    rwa [length_calculate_rsi] at hlen
  by_cases hdef : i + 1 < w ∨ w = 0
  · have hg : (gainSeries data w)[i]? = some .nan := by
      rw [gainSeries]
      exact rollingMean_nan (by simpa [length_diff] using hi) hdef
    have hl : (lossSeries data w)[i]? = some .nan := by
      rw [lossSeries]
      exact rollingMean_nan (by simpa [length_diff] using hi) hdef
    rw [calculate_rsi_getElem? hg hl] at hx
    exact Or.inl (Option.some.inj hx).symm
  · push_neg at hdef
    have hw1 : 0 < w := Nat.pos_of_ne_zero hdef.2
    have hw2 : w ≤ i + 1 := hdef.1
    obtain ⟨g, hg, hg0⟩ := gainSeries_num hreal hi hw1 hw2
    obtain ⟨l, hl, hl0⟩ := lossSeries_num hreal hi hw1 hw2
    rw [calculate_rsi_getElem? hg hl] at hx
    rcases eq_or_lt_of_le hl0 with hl0' | hlpos
    · rw [← hl0'] at hx
      rcases eq_or_lt_of_le hg0 with hg0' | hgpos
      · rw [← hg0', div_zero_zero, rsiFormula_nan] at hx
        exact Or.inl (Option.some.inj hx).symm
      · rw [div_num_zero_pos hgpos, rsiFormula_inf] at hx
        exact Or.inr ⟨100, (Option.some.inj hx).symm, by norm_num, by norm_num⟩
    · rw [div_num_pos hlpos, rsiFormula_num (div_nonneg hg0 hlpos.le)] at hx
      obtain ⟨b1, b2⟩ := rsiValue_bounds (div_nonneg hg0 hlpos.le)
      exact Or.inr ⟨_, (Option.some.inj hx).symm, b1, b2⟩

/-- C3 witness: the theorem applied at the concrete 15-point series with
    window 14, evaluated at index 13. -/
theorem rsi_length_and_range_witness :
    (calculate_rsi close15 14).length = 15 ∧
    (PFloat.num 82 = .nan ∨ ∃ q : ℚ, PFloat.num 82 = .num q ∧ 0 ≤ q ∧ q ≤ 100) := by
  have h := rsi_length_and_range close15 14 (by decide)
  exact ⟨by rw [h.1]; rfl, h.2 13 (.num 82) (by decide)⟩

/-- C4: per index, the Signal cell is −1 (Sell) exactly under RSI > 70,
    1 (Buy) under RSI < 30, and 0 (Neutral) otherwise — in particular for
    NaN and for RSI exactly 70 or exactly 30 (strict comparisons). -/
theorem signal_threshold_rule (rsi : List PFloat) (i : ℕ) (x : PFloat)
    (hx : rsi[i]? = some x) :
    (x.gt (.num 70) = true → (signalSeries rsi)[i]? = some (.num (-1))) ∧
    (x.lt (.num 30) = true → (signalSeries rsi)[i]? = some (.num 1)) ∧
    (x.gt (.num 70) = false → x.lt (.num 30) = false →
      (signalSeries rsi)[i]? = some (.num 0)) ∧
    (x = .nan → (signalSeries rsi)[i]? = some (.num 0)) ∧
    (x = .num 70 → (signalSeries rsi)[i]? = some (.num 0)) ∧
    (x = .num 30 → (signalSeries rsi)[i]? = some (.num 0)) := by
  have hs : (signalSeries rsi)[i]? = some (sigOf x) := by
    rw [signalSeries_getElem?, hx]
    rfl
  refine ⟨?_, ?_, ?_, ?_, ?_, ?_⟩
  · intro hgt
    rw [hs]
    simp [sigOf, hgt, gt70_lt30_false hgt]
  · intro hlt
    rw [hs]
    simp [sigOf, hlt]
  · intro hgt hlt
    rw [hs]
    simp [sigOf, hgt, hlt]
  · intro h
    subst h
    rw [hs]
    rfl
  · intro h
    subst h
    rw [hs, show sigOf (.num 70) = .num 0 from by decide]
  · intro h
    subst h
    rw [hs, show sigOf (.num 30) = .num 0 from by decide]

/-- C4 witness: the rule applied at a series hitting all four cases
    (above 70, below 30, NaN, exactly 70). -/
theorem signal_threshold_rule_witness :
    (signalSeries [PFloat.num 75, .num 20, .nan, .num 70])[0]? = some (.num (-1)) ∧
    (signalSeries [PFloat.num 75, .num 20, .nan, .num 70])[1]? = some (.num 1) ∧
    (signalSeries [PFloat.num 75, .num 20, .nan, .num 70])[2]? = some (.num 0) ∧
    (signalSeries [PFloat.num 75, .num 20, .nan, .num 70])[3]? = some (.num 0) :=
  ⟨(signal_threshold_rule _ 0 (.num 75) (by decide)).1 (by decide),
   (signal_threshold_rule _ 1 (.num 20) (by decide)).2.1 (by decide),
   (signal_threshold_rule _ 2 .nan (by decide)).2.2.2.1 rfl,
   (signal_threshold_rule _ 3 (.num 70) (by decide)).2.2.2.2.1 rfl⟩

/-- C5 (counterexample): Position[0] is NaN (`shift()` leaves no prior
    value), not the Neutral signal value 0. -/
theorem position_first_not_neutral :
    (positionSeries [PFloat.num 50])[0]? = some .nan ∧ PFloat.nan ≠ .num 0 :=
  ⟨by decide, by decide⟩

/-- C5 (amended): Signal and Position have the RSI series' length,
    Position[i] = Signal[i−1] for 1 ≤ i < length, and Position[0] is
    undefined (NaN) rather than Neutral. -/
theorem position_lag_rule (rsi : List PFloat) :
    (signalSeries rsi).length = rsi.length ∧
    (positionSeries rsi).length = rsi.length ∧
    (∀ i, 1 ≤ i → i < rsi.length →
      (positionSeries rsi)[i]? = (signalSeries rsi)[i - 1]?) ∧
    (0 < rsi.length → (positionSeries rsi)[0]? = some .nan) := by
  refine ⟨length_signalSeries rsi, ?_, ?_, ?_⟩
  · rw [positionSeries, length_shift1, length_signalSeries]
  · intro i h1 hi
    obtain ⟨n, rfl⟩ : ∃ n, i = n + 1 := ⟨i - 1, by omega⟩
    rw [positionSeries, shift1_getElem?_succ]
    · simp
    · rw [length_signalSeries]
      exact hi
  · intro h
    rw [positionSeries, shift1_getElem?_zero]
    rw [length_signalSeries]
    exact h

/-- C5 witness: the lag rule applied at the two-point series [75, 20]. -/
theorem position_lag_rule_witness :
    (positionSeries [PFloat.num 75, .num 20])[1]? =
      (signalSeries [PFloat.num 75, .num 20])[0]? ∧
    (positionSeries [PFloat.num 75, .num 20])[0]? = some .nan := by
  have h := position_lag_rule [PFloat.num 75, .num 20]
  exact ⟨h.2.2.1 1 (by decide) (by decide), h.2.2.2 (by decide)⟩

/-- C6 (counterexample): on the empty raw mapping the pipeline fails with
    the generic KeyError on the missing Close column — the very same error
    a non-empty input lacking a close field produces — not with a distinct
    empty-input error. -/
theorem empty_input_error_counterexample :
    analyze_currency_strength ⟨[], none, none⟩ = .error (.keyError "Close") ∧
    analyze_currency_strength
        ⟨[(.date 0 1, [("1. open", .num 1)])], none, none⟩ = .error (.keyError "Close") :=
  ⟨by decide, by decide⟩

/-- C6 (amended): on an empty raw mapping the pipeline fails — with the
    generic KeyError "Close", not a distinct EmptySeries error — and the
    state is unchanged, so no series is produced. -/
theorem empty_input_fails (st : AState) (h : st.data = []) :
    analyze_currency_strength st = .error (.keyError "Close") ∧ run_analyze st = st := by
  have h1 : analyze_currency_strength st = .error (.keyError "Close") := by
    simp only [analyze_currency_strength, h]
    rfl
  refine ⟨h1, ?_⟩
  simp only [run_analyze, h1]

/-- C6 witness: the amended theorem applied at the empty-input state. -/
theorem empty_input_fails_witness :
    analyze_currency_strength ⟨[], none, none⟩ = .error (.keyError "Close") ∧
    run_analyze ⟨[], none, none⟩ = ⟨[], none, none⟩ :=
  empty_input_fails ⟨[], none, none⟩ rfl

/-- C7: when any record holds a price field that fails to parse as a
    number, `from_dict(dtype=float)` raises ValueError, the whole pipeline
    aborts with that error, and the state (hence both series slots) is
    exactly as before the call. -/
theorem malformed_input_aborts (st : AState) (h : containsInvalid st.data = true) :
    analyze_currency_strength st = .error .valueError ∧
    run_analyze st = st ∧
    Except.bind (analyze_currency_strength st) generate_trade_signals
      = .error .valueError := by
  have hpre : preprocess_data st.data = .error .valueError := by
    rw [preprocess_data, if_pos h]
  have h1 : analyze_currency_strength st = .error .valueError := by
    simp only [analyze_currency_strength, hpre]
  refine ⟨h1, ?_, ?_⟩
  · simp only [run_analyze, h1]
  · rw [h1]
    rfl

/-- C7 witness: the theorem applied at a one-record input whose close
    field is the unparseable string "N/A". -/
theorem malformed_input_aborts_witness :
    containsInvalid [((RawKey.date 0 1), [("4. close", RawVal.invalid "N/A")])] = true ∧
    analyze_currency_strength ⟨[(.date 0 1, [("4. close", .invalid "N/A")])], none, none⟩
      = .error .valueError ∧
    run_analyze ⟨[(.date 0 1, [("4. close", .invalid "N/A")])], none, none⟩
      = ⟨[(.date 0 1, [("4. close", .invalid "N/A")])], none, none⟩ :=
  ⟨by decide,
   (malformed_input_aborts ⟨[(.date 0 1, [("4. close", .invalid "N/A")])], none, none⟩
      (by decide)).1,
   (malformed_input_aborts ⟨[(.date 0 1, [("4. close", .invalid "N/A")])], none, none⟩
      (by decide)).2.1⟩

/-- C8 (counterexample): with window equal to the series length (an
    "invalid" window per the claim), `calculate_rsi` neither fails nor
    returns an all-undefined series: on [1, 2] with window 2 the last
    entry is the defined value 100. -/
theorem invalid_window_policy_counterexample :
    calculate_rsi [PFloat.num 1, .num 2] 2 = [.nan, .num 100] ∧
    PFloat.num 100 ≠ .nan :=
  ⟨by decide, by decide⟩

/-- C8 (amended): the engine never raises; for window 0 or window greater
    than the series length it returns an all-NaN series, but for window
    equal to the series length it can produce a defined value at the last
    index (so the spec's two uniform policies both fail). -/
theorem invalid_window_degrades (data : List PFloat) (w : ℕ)
    (h : w = 0 ∨ data.length < w) :
    (∀ i, i < data.length → (calculate_rsi data w)[i]? = some .nan) ∧
    calculate_rsi [PFloat.num 1, .num 2] 2 = [.nan, .num 100] := by
  refine ⟨?_, by decide⟩
  intro i hi
  have hcond : i + 1 < w ∨ w = 0 := by
    rcases h with h | h
    · exact Or.inr h
    · exact Or.inl (by omega)
  have hg : (gainSeries data w)[i]? = some .nan := by
    rw [gainSeries]
    exact rollingMean_nan (by simpa [length_diff] using hi) hcond
  have hl : (lossSeries data w)[i]? = some .nan := by
    rw [lossSeries]
    exact rollingMean_nan (by simpa [length_diff] using hi) hcond
  rw [calculate_rsi_getElem? hg hl]
  rfl

/-- C8 witness: the amended theorem applied at a one-point series with
    window 3. -/
theorem invalid_window_degrades_witness :
    (calculate_rsi [PFloat.num 5] 3)[0]? = some .nan ∧
    calculate_rsi [PFloat.num 1, .num 2] 2 = [.nan, .num 100] := by
  have h := invalid_window_degrades [PFloat.num 5] 3 (Or.inr (by decide))
  exact ⟨h.1 0 (by decide), h.2⟩

/-- C9 (counterexample): two distinct keys denoting the same date do not
    make the normalizer fail: both rows are kept, and the resulting date
    index [5, 5] is not strictly increasing. -/
theorem duplicate_dates_kept_counterexample :
    preprocess_data
        [(.date 0 5, [("4. close", .num 1)]), (.date 1 5, [("4. close", .num 1)])] =
      .ok ⟨["Close"], [(5, [.num 1]), (5, [.num 1])]⟩ ∧
    ¬ List.Chain' (fun a b : ℤ => a < b) [5, 5] :=
  ⟨by decide, by simp [List.chain'_cons]⟩

/-- C9 (amended): every successfully produced table has non-decreasing
    (not strictly increasing) dates, and duplicate dates are silently
    kept: the two-keys-same-date input succeeds with date index [5, 5]. -/
theorem preprocess_dates_sorted :
    (∀ (raw : RawInput) (df : DF), preprocess_data raw = .ok df →
      List.Chain' (fun a b : ℤ => a ≤ b) (df.rows.map Prod.fst)) ∧
    preprocess_data
        [(.date 0 5, [("4. close", .num 1)]), (.date 1 5, [("4. close", .num 1)])] =
      .ok ⟨["Close"], [(5, [.num 1]), (5, [.num 1])]⟩ := by
  refine ⟨?_, by decide⟩
  intro raw df h
  simp only [preprocess_data] at h
  by_cases h1 : containsInvalid raw = true
  · rw [if_pos h1] at h
    exact Except.noConfusion h
  · rw [if_neg h1] at h
    by_cases h2 : containsBadKey raw = true
    · rw [if_pos h2] at h
      exact Except.noConfusion h
    · rw [if_neg h2] at h
      have h3 := Except.ok.inj h
      rw [← h3]
      exact (List.chain'_map Prod.fst).mpr (chain_dates_sortRows _)

/-- C9 witness: the sortedness guarantee applied to the duplicate-date
    input's output table. -/
theorem preprocess_dates_sorted_witness :
    List.Chain' (fun a b : ℤ => a ≤ b)
      (List.map Prod.fst [((5:ℤ), [PFloat.num 1]), (5, [PFloat.num 1])]) :=
  preprocess_dates_sorted.1 _ ⟨["Close"], [(5, [.num 1]), (5, [.num 1])]⟩
    preprocess_dates_sorted.2

/-- C10: whenever `generate_trade_signals` succeeds, the stored analysis
    table and raw data are exactly what they were (the function works on a
    copy), and only the separate signals slot receives the analysis table
    extended with the Signal and Position columns. -/
theorem signals_no_mutation (st st' : AState)
    (h : generate_trade_signals st = .ok st') :
    st'.analysis = st.analysis ∧ st'.data = st.data ∧
    ∃ df0 rsi, st.analysis = some df0 ∧ df0.getCol "RSI" = .ok rsi ∧
      st'.signals = some ((df0.setCol "Signal" (signalSeries rsi)).setCol "Position"
        (shift1 (signalSeries rsi))) := by
  cases hA : st.analysis with
  | none =>
    simp only [generate_trade_signals, hA] at h
    exact Except.noConfusion h
  | some df0 =>
    simp only [generate_trade_signals, hA] at h
    cases hR : df0.getCol "RSI" with
    | error e =>
      rw [hR] at h
      exact Except.noConfusion h
    | ok rsi =>
      rw [hR] at h
      have h2 := Except.ok.inj h
      subst h2
      exact ⟨rfl, rfl, df0, rsi, rfl, hR, rfl⟩

/-- The concrete pre-state for the C10 witness: analysis holds a
    one-row table with an RSI column. -/
def stW : AState := ⟨[], some ⟨["RSI"], [(0, [.num 80])]⟩, none⟩

/-- The concrete post-state `generate_trade_signals` produces from `stW`. -/
def stW' : AState :=
  ⟨[], some ⟨["RSI"], [(0, [.num 80])]⟩,
   some ⟨["RSI", "Signal", "Position"], [(0, [.num 80, .num (-1), .nan])]⟩⟩

/-- C10 witness: the theorem applied at the concrete one-row state. -/
theorem signals_no_mutation_witness :
    stW'.analysis = stW.analysis ∧ stW'.data = stW.data ∧
    ∃ df0 rsi, stW.analysis = some df0 ∧ df0.getCol "RSI" = .ok rsi ∧
      stW'.signals = some ((df0.setCol "Signal" (signalSeries rsi)).setCol "Position"
        (shift1 (signalSeries rsi))) :=
  signals_no_mutation stW stW' (by decide)

end Forex
